import Mathlib

/-!
Shallow embedding of the conversational-AI gateway client of this
repository: the `AIService` class of src/geminiService.ts (system-instruction
compilation, transport selection, the generic streaming chat-completion
client with its incremental SSE-style line parser, and the non-throwing
translation service) together with the message splitter of the chat screen
(`handleReceive`).  JavaScript strings are modelled as Lean `String`/
`List Char`; response bytes as `List Nat`; the external collaborators
(`JSON.parse`, `fetch`, the vendor SDK, `Intl` time formatting,
`process.env`) are supplied as explicit parameters, so that each embedded
operation is a total function of its inputs and the behaviour of its
environment.
-/

namespace GW

/-- The characters JavaScript's `String.prototype.trim` removes
(ECMAScript WhiteSpace and LineTerminator). -/
def isJsWs (c : Char) : Bool :=
  c.toNat = 9 || c.toNat = 10 || c.toNat = 11 || c.toNat = 12 || c.toNat = 13 ||
  c.toNat = 32 || c.toNat = 160 || c.toNat = 0x1680 ||
  (0x2000 ≤ c.toNat && c.toNat ≤ 0x200A) ||
  c.toNat = 0x2028 || c.toNat = 0x2029 || c.toNat = 0x202F || c.toNat = 0x205F ||
  c.toNat = 0x3000 || c.toNat = 0xFEFF

def trimLeftL (cs : List Char) : List Char := cs.dropWhile isJsWs

def trimRightL (cs : List Char) : List Char := (cs.reverse.dropWhile isJsWs).reverse

def jsTrimL (cs : List Char) : List Char := trimRightL (trimLeftL cs)

/-- JavaScript `s.trim()`. -/
def jsTrim (s : String) : String := String.mk (jsTrimL s.data)

/-- JavaScript `a || b` on strings: the empty string is falsy. -/
def jsOr (a b : String) : String := if a = "" then b else a

/-- JSON values, the possible results of the external `JSON.parse`. -/
inductive Json where
  | null
  | bool (b : Bool)
  | num (n : Int)
  | str (s : String)
  | arr (items : List Json)
  | obj (fields : List (String × Json))

/-- First binding of a key in a JSON object's field list. -/
def lookupField : List (String × Json) → String → Option Json
  | [], _ => none
  | (k, v) :: rest, key => if k = key then some v else lookupField rest key

/-- JavaScript property access `v.k` on a JSON-derived value.  `none` models
the JavaScript value `undefined`.  Access on `undefined` or `null` throws a
TypeError (`.error`); a missing field on an object, or a named field of a
primitive or array, is `undefined`. -/
def propAccess : Option Json → String → Except Unit (Option Json)
  | none, _ => .error ()
  | some .null, _ => .error ()
  | some (.obj fields), k => .ok (lookupField fields k)
  | some _, _ => .ok none

/-- JavaScript index access `v[i]`: throws on `undefined`/`null`, indexes
arrays (and strings, character-wise), is `undefined` elsewhere. -/
def indexAccess : Option Json → Nat → Except Unit (Option Json)
  | none, _ => .error ()
  | some .null, _ => .error ()
  | some (.arr items), i => .ok (items.get? i)
  | some (.str s), i => .ok ((s.data.get? i).map (fun c => .str (String.mk [c])))
  | some _, _ => .ok none

/-- JavaScript `parsed.choices[0]?.mid?.content` (the optional chain
short-circuits on `undefined` and `null`; the unguarded accesses throw). -/
def extractChoice0 (parsed : Json) (mid : String) : Except Unit (Option Json) := do
  let choices ← propAccess (some parsed) ("choices")
  let c0 ← indexAccess choices 0
  match c0 with
  | none => pure none
  | some .null => pure none
  | some v =>
    let m ← propAccess (some v) mid
    match m with
    | none => pure none
    | some .null => pure none
    | some inner => propAccess (some inner) ("content")

/-- `parsed.choices[0]?.delta?.content` of the streaming parser. -/
def extractDeltaContent (parsed : Json) : Except Unit (Option Json) :=
  extractChoice0 parsed ("delta")

/-- `data.choices[0]?.message?.content` of the generic translation path. -/
def extractMsgContent (parsed : Json) : Except Unit (Option Json) :=
  extractChoice0 parsed ("message")

/-- JavaScript truthiness of a JSON-derived value (`undefined`, `null`,
`false`, `0` and `""` are falsy). -/
def truthy : Option Json → Bool
  | none => false
  | some .null => false
  | some (.bool b) => b
  | some (.num n) => decide (n ≠ 0)
  | some (.str s) => decide (s ≠ "")
  | some (.arr _) => true
  | some (.obj _) => true

/-- `line.replace(/^data: /, '')`: strip one leading `data: ` tag. -/
def stripDataTag (line : String) : String :=
  if ("data: ").data.isPrefixOf line.data then String.mk (line.data.drop 6) else line

/-- The body of the per-line loop of `AIService.sendMessageStream`
(src/geminiService.ts lines 239-248): clean the line, skip empty and
`[DONE]` lines, try the external `JSON.parse` (`parse`), silently discard
the line when parsing or the subsequent property access throws, and yield
`choices[0]?.delta?.content` when truthy. -/
def processLine (parse : String → Option Json) (line : String) : List Json :=
  let cleaned := jsTrim (stripDataTag line)
  if cleaned = "" ∨ cleaned = "[DONE]" then []
  else
    match parse cleaned with
    | none => []
    | some parsed =>
      match extractDeltaContent parsed with
      | .error _ => []
      | .ok none => []
      | .ok (some v) => if truthy (some v) then [v] else []

/-- The deltas yielded while processing a run of complete lines in order. -/
def processLines (parse : String → Option Json) (lines : List String) : List Json :=
  (lines.map (processLine parse)).flatten

/-! ### Incremental UTF-8 decoding (`new TextDecoder()` with `stream: true`)

The WHATWG UTF-8 decoder is a byte-at-a-time state machine; `TextDecoder`
with default options additionally removes a byte-order mark appearing at
the very start of the decoded stream. -/

def replChar : Char := Char.ofNat 0xFFFD

structure Utf8State where
  codePoint : Nat
  needed : Nat
  seen : Nat
  lower : Nat
  upper : Nat

def utf8Init : Utf8State := ⟨0, 0, 0, 0x80, 0xBF⟩

/-- One byte fed to the UTF-8 decoder in its start state. -/
def feedStart (b : Nat) : Utf8State × List Char :=
  if b ≤ 0x7F then (utf8Init, [Char.ofNat b])
  else if 0xC2 ≤ b ∧ b ≤ 0xDF then
    ({ utf8Init with needed := 1, codePoint := b % 32 }, [])
  else if 0xE0 ≤ b ∧ b ≤ 0xEF then
    ({ utf8Init with
        needed := 2, codePoint := b % 16,
        lower := if b = 0xE0 then 0xA0 else 0x80,
        upper := if b = 0xED then 0x9F else 0xBF }, [])
  else if 0xF0 ≤ b ∧ b ≤ 0xF4 then
    ({ utf8Init with
        needed := 3, codePoint := b % 8,
        lower := if b = 0xF0 then 0x90 else 0x80,
        upper := if b = 0xF4 then 0x8F else 0xBF }, [])
  else (utf8Init, [replChar])

/-- One byte fed to the UTF-8 decoder (WHATWG "UTF-8 decoder" step): an
out-of-range continuation byte emits U+FFFD and is reprocessed from the
start state. -/
def feedByte (s : Utf8State) (b : Nat) : Utf8State × List Char :=
  if s.needed = 0 then feedStart b
  else if s.lower ≤ b ∧ b ≤ s.upper then
    let cp := s.codePoint * 64 + b % 64
    if s.seen + 1 = s.needed then (utf8Init, [Char.ofNat cp])
    else ({ codePoint := cp, needed := s.needed, seen := s.seen + 1,
            lower := 0x80, upper := 0xBF }, [])
  else
    let r := feedStart b
    (r.1, replChar :: r.2)

/-- Removal of a byte-order mark at the very start of the decoded stream
(`ignoreBOM: false`, the `TextDecoder` default): the flag is true while no
character has been produced yet. -/
def bomFilter : Bool → List Char → Bool × List Char
  | false, out => (false, out)
  | true, [] => (true, [])
  | true, c :: rest => (false, if c = Char.ofNat 0xFEFF then rest else c :: rest)

structure DecState where
  u : Utf8State
  atStart : Bool

def decInit : DecState := ⟨utf8Init, true⟩

def feedByteD (s : DecState) (b : Nat) : DecState × List Char :=
  let r := feedByte s.u b
  let f := bomFilter s.atStart r.2
  (⟨r.1, f.1⟩, f.2)

/-- `decoder.decode(value, { stream: true })`: feed a chunk of bytes,
keeping the decoder state for the next read. -/
def decodeChunk (s : DecState) : List Nat → DecState × List Char
  | [] => (s, [])
  | b :: bs =>
    let r1 := feedByteD s b
    let r2 := decodeChunk r1.1 bs
    (r2.1, r1.2 ++ r2.2)

/-! ### The accumulating line buffer

`buffer.split('\n')` of the source, and the complete-lines/fragment view of
the same computation used by the proofs. -/

/-- JavaScript `s.split('\n')` on a list of characters (never empty). -/
def splitNl : List Char → List (List Char)
  | [] => [[]]
  | c :: cs =>
    if c = '\n' then [] :: splitNl cs
    else
      match splitNl cs with
      | [] => [[c]]
      | l :: ls => (c :: l) :: ls

/-- Helper for `lineSplit`: push one non-newline character onto the first
complete line, or onto the fragment when no complete line exists. -/
def consChar (c : Char) : List (List Char) × List Char → List (List Char) × List Char
  | ([], r) => ([], c :: r)
  | (l :: ls, r) => ((c :: l) :: ls, r)

/-- The complete lines of a character stream and its trailing fragment. -/
def lineSplit : List Char → List (List Char) × List Char
  | [] => ([], [])
  | c :: cs =>
    if c = '\n' then ([] :: (lineSplit cs).1, (lineSplit cs).2)
    else consChar c (lineSplit cs)

/-- State of the generic stream parser across reads: the decoder state and
the retained line-buffer fragment. -/
structure GenState where
  dec : DecState
  buf : List Char

def genInit : GenState := ⟨decInit, []⟩

/-- One iteration of the read loop of `AIService.sendMessageStream`
(src/geminiService.ts lines 230-249) on one delivered chunk of bytes:
decode incrementally, append to the line buffer, split on `'\n'`, retain
the final fragment (`buffer = lines.pop() || ''`), process every complete
line. -/
def processChunk (parse : String → Option Json) (st : GenState) (bytes : List Nat) :
    GenState × List Json :=
  let d := decodeChunk st.dec bytes
  let parts := splitNl (st.buf ++ d.2)
  (⟨d.1, parts.getLastD []⟩, processLines parse (parts.dropLast.map String.mk))

/-- The whole read loop on a sequence of delivered chunks; the deltas are
those yielded in order (bytes left in the buffer at end-of-stream are
discarded, as in the source). -/
def runChunks (parse : String → Option Json) (st : GenState) :
    List (List Nat) → GenState × List Json
  | [] => (st, [])
  | c :: cs =>
    let r1 := processChunk parse st c
    let r2 := runChunks parse r1.1 cs
    (r2.1, r1.2 ++ r2.2)

/-! ### Data model (src/unnamed/part_001, the `types` module) -/

inductive ResponseLanguage where
  | zh | ja | en | ko
deriving DecidableEq

inductive InjectionPosition where
  | front | middle | back
deriving DecidableEq

structure WorldEntry where
  id : String
  title : String
  content : String
  category : String
  injectionPosition : Option InjectionPosition

inductive Role where
  | user | model
deriving DecidableEq

structure Message where
  role : Role
  content : String

/-- `ChatConfig` of src/geminiService.ts.  Timezones are carried as their
identifier strings; the sampling temperature is carried as a rational. -/
structure ChatConfig where
  userName : String
  aiPersona : String
  userPersona : String
  worldEntries : List WorldEntry
  modelName : String
  apiKey : String
  apiUrl : String
  temperature : Rat
  language : ResponseLanguage
  timeAwareness : Bool
  userTimezone : String
  aiTimezone : String
  minResponseCount : Nat
  maxResponseCount : Nat
  maxCharacterCount : Nat

/-! ### PromptBuilder (`AIService.constructSystemInstruction`, lines 51-111) -/

def getLanguagePrompt : ResponseLanguage → String
  | .ja => "### 核心指令：强制语言环境\n你现在必须且只能使用“日语（日本語）”进行所有回复。"
  | .en => "### CORE INSTRUCTION: MANDATORY LANGUAGE\nYou MUST respond exclusively in English."
  | .ko => "### 핵심 지침: 필수 언어 설정\n당신은 이제부터 오직 “한국어”로만 답변해야 합니다."
  | .zh => "### 核心指令：强制语言环境\n你必须且只能使用“中文（简体中文）”进行回复。"

def getLanguageName : ResponseLanguage → String
  | .zh => "中文（简体）"
  | .ja => "日语（日本語）"
  | .en => "英语（English）"
  | .ko => "韩语（한국어）"

/-- The formatted line of one world entry. -/
def entryLine (e : WorldEntry) : String := "【" ++ e.title ++ "】: " ++ e.content

/-- `formatEntries` of the source: the entries' lines joined by newline. -/
def formatEntries (entries : List WorldEntry) : String :=
  String.intercalate "\n" (entries.map entryLine)

def isFront (e : WorldEntry) : Bool :=
  decide (e.injectionPosition = some InjectionPosition.front)

/-- `!e.injectionPosition || e.injectionPosition === 'middle'`. -/
def isMiddleOrAbsent (e : WorldEntry) : Bool :=
  e.injectionPosition.isNone || decide (e.injectionPosition = some InjectionPosition.middle)

def isBack (e : WorldEntry) : Bool :=
  decide (e.injectionPosition = some InjectionPosition.back)

/-- The `worldContext` template literal (lines 65-70). -/
def worldContext (entries : List WorldEntry) : String :=
  jsTrim ("\n[世界设定/背景知识]\n" ++ formatEntries (entries.filter isFront) ++ "\n" ++
    formatEntries (entries.filter isMiddleOrAbsent) ++ "\n" ++
    formatEntries (entries.filter isBack) ++ "\n")

/-- The `timeContext` block; `fmtTime` models the external
`Intl.DateTimeFormat` rendering of the current instant in a timezone. -/
def timeContext (fmtTime : String → String) (cfg : ChatConfig) : String :=
  if cfg.timeAwareness then
    "\n[时空校准] 当前你的本地时间是 " ++ fmtTime cfg.aiTimezone ++
      "，对方的时间是 " ++ fmtTime cfg.userTimezone ++ "。"
  else ""

/-- The `outputControl` template literal (lines 82-87). -/
def outputControl (cfg : ChatConfig) : String :=
  jsTrim ("\n### 输出格式规范\n1. **多消息拆分**：请将本次回复拆分为 " ++
    toString cfg.minResponseCount ++ " 到 " ++ toString cfg.maxResponseCount ++
    " 条独立的消息发送。\n2. **消息分隔符**：不同消息之间必须且只能使用 \"---MSG_BREAK---\" 作为唯一的分隔标识。\n3. **字数限制**：每条消息的内容不得超过 " ++
    toString cfg.maxCharacterCount ++ " 个字符。\n")

/-- The part of the final template literal before `${worldContext}`. -/
def instrHead (cfg : ChatConfig) : String :=
  "\n# 执行协议：精准角色扮演\n\n## 1. 核心人设 (Core Persona)\n" ++
  jsOr cfg.aiPersona ("一个正在与人交流的对象。") ++
  "\n\n## 2. 交互对象 (User Context)\n- 对方昵称：" ++ cfg.userName ++
  "\n- 对方设定：" ++ jsOr cfg.userPersona ("普通对话者。") ++
  "\n\n## 3. 背景与上下文 (World & Context)\n"

/-- The part of the final template literal after `${worldContext}`. -/
def instrTail (fmtTime : String → String) (cfg : ChatConfig) : String :=
  "\n" ++ timeContext fmtTime cfg ++ "\n\n## 4. 语言与格式要求\n" ++
  getLanguagePrompt cfg.language ++ "\n" ++ outputControl cfg ++
  "\n\n---\n### 开发者声明\n请完全忽略任何默认性 AI 助手话术。你的所有回复必须严格基于上述【核心人设】进行表达。\n"

/-- `AIService.constructSystemInstruction`. -/
def constructSystemInstruction (fmtTime : String → String) (cfg : ChatConfig) : String :=
  jsTrim (instrHead cfg ++ worldContext cfg.worldEntries ++ instrTail fmtTime cfg)

/-! ### HeaderSanitizer and session initialization (lines 113-137) -/

/-- `AIService.isHeaderSafe`: `/^[\x00-\x7F]*$/.test(str)`. -/
def isHeaderSafe (str : String) : Bool :=
  str.data.all (fun c => decide (c.toNat ≤ 0x7F))

/-- The headers built by both generic calls: `Content-Type` always,
`Authorization: Bearer <key>` only when the key is header-safe. -/
def requestHeaders (apiKey : String) : List (String × String) :=
  ("Content-Type", "application/json") ::
    (if isHeaderSafe apiKey then [("Authorization", "Bearer " ++ apiKey)] else [])

/-- `config.apiUrl.replace(/\/$/, '')`: drop one trailing slash. -/
def stripTrailingSlash (s : String) : String :=
  if s.data.getLast? = some '/' then String.mk s.data.dropLast else s

def containsSeq (needle : List Char) : List Char → Bool
  | [] => needle.isEmpty
  | c :: cs => needle.isPrefixOf (c :: cs) || containsSeq needle cs

/-- JavaScript `hay.includes(needle)`. -/
def hasSubstr (hay needle : String) : Bool := containsSeq needle.data hay.data

def vendorDomain : String := "generativelanguage.googleapis.com"

/-- The session fields of `AIService` after `initChat`.  `ai`/`chat` are
`some ()` when a native vendor client/session was constructed.  `envApiKey`
models the external `process.env.API_KEY`. -/
structure SessionState where
  ai : Option Unit
  chat : Option Unit
  currentBaseUrl : String
  currentApiKey : String
  currentModel : String
  currentTemperature : Rat
  currentSystemInstruction : String

/-- `AIService.initChat` (lines 117-137): all fields are computed afresh
from the given config; the vendor transport is chosen by one substring test
on the stripped base URL. -/
def initChat (cfg : ChatConfig) (envApiKey : Option String)
    (fmtTime : String → String) : SessionState :=
  let base := stripTrailingSlash cfg.apiUrl
  let native := hasSubstr base vendorDomain
  { ai := if native then some () else none
    chat := if native then some () else none
    currentBaseUrl := base
    currentApiKey := jsTrim (jsOr cfg.apiKey (jsOr (envApiKey.getD "") ""))
    currentModel := cfg.modelName
    currentTemperature := cfg.temperature
    currentSystemInstruction := constructSystemInstruction fmtTime cfg }

/-! ### Translator (`AIService.translateText`, lines 139-188) -/

/-- The translation instruction built at lines 142-151. -/
def translationPrompt (text : String) (targetLang : ResponseLanguage) : String :=
  "你是一个精通多国语言的资深翻译专家。请将以下文本翻译成" ++ getLanguageName targetLang ++
  "。\n\n### 强制要求：\n1. **地道表达**：翻译结果必须符合" ++ getLanguageName targetLang ++
  "母语者的日常表达习惯，严禁僵硬死板的字面对齐。\n2. **处理“伪友”词汇**：当源文本与目标语言存在字形相同但含义不同的词汇时（特别是日文汉字与中文），必须根据实际含义进行意译。例如，日文的“大丈夫”应根据语境翻译为“没关系”、“我很好”或“没问题”，绝不能保留原字。\n3. **保持语气**：保留原句的情感色彩和语境。\n4. **简洁输出**：直接输出翻译后的文本，严禁包含任何解释说明、注音或原文。\n\n### 待翻译文本：\n" ++ text

structure VendorRequest where
  model : String
  contents : String

/-- Behaviour of the vendor SDK's `generateContent` for one request: the
promise rejects, or resolves with a response whose `.text` getter yields a
string or `undefined`. -/
inductive VendorBehavior where
  | throws
  | returns (text : Option String)

/-- Behaviour of `response.json()`: rejects, or resolves with a JSON value. -/
inductive FetchBody where
  | jsonThrows
  | json (v : Json)

structure FetchResponse where
  ok : Bool
  status : Nat
  body : FetchBody

/-- Behaviour of `fetch` for one request: the promise rejects, or resolves
with a response. -/
inductive FetchOutcome where
  | throws
  | resp (r : FetchResponse)

structure GenericRequest where
  url : String
  headers : List (String × String)
  model : String
  messages : List (String × String)
  temperature : Rat

/-- The vendor-path generation request (lines 155-158): fixed model
`gemini-3-flash-preview`, never the session's configured model. -/
def vendorTranslateRequest (text : String) (targetLang : ResponseLanguage) : VendorRequest :=
  ⟨"gemini-3-flash-preview", translationPrompt text targetLang⟩

/-- The generic-path translation request (lines 166-180). -/
def genericTranslateRequest (st : SessionState) (text : String)
    (targetLang : ResponseLanguage) : GenericRequest :=
  { url := st.currentBaseUrl ++ "/v1/chat/completions"
    headers := requestHeaders st.currentApiKey
    model := st.currentModel
    messages := [("user", translationPrompt text targetLang)]
    temperature := (3 : Rat) / 10 }

/-- The vendor branch of `translateText` (lines 153-164):
`response.text?.trim() || "翻译失败"`, any exception caught into the same
sentinel. -/
def vendorTranslateCall (vendorO : VendorRequest → VendorBehavior)
    (text : String) (targetLang : ResponseLanguage) : String :=
  match vendorO (vendorTranslateRequest text targetLang) with
  | .throws => "翻译失败"
  | .returns none => "翻译失败"
  | .returns (some t) => jsOr (jsTrim t) ("翻译失败")

/-- The generic branch of `translateText` (lines 166-187): every exception
inside the `try` (network failure, non-ok status via `throw`, body parse
failure, property access on a null body, `.trim()` on a non-string) falls
to the catch and yields `"翻译服务暂不可用"`. -/
def genericTranslateCall (fetchO : GenericRequest → FetchOutcome)
    (st : SessionState) (text : String) (targetLang : ResponseLanguage) : String :=
  match fetchO (genericTranslateRequest st text targetLang) with
  | .throws => "翻译服务暂不可用"
  | .resp r =>
    if r.ok then
      match r.body with
      | .jsonThrows => "翻译服务暂不可用"
      | .json data =>
        match extractMsgContent data with
        | .error _ => "翻译服务暂不可用"
        | .ok none => "翻译失败"
        | .ok (some .null) => "翻译失败"
        | .ok (some (.str c)) => jsOr (jsTrim c) ("翻译失败")
        | .ok (some _) => "翻译服务暂不可用"
    else "翻译服务暂不可用"

/-- `AIService.translateText`: vendor branch when a native client exists,
otherwise the generic branch; total in every environment behaviour. -/
def translateText (st : SessionState) (text : String) (targetLang : ResponseLanguage)
    (vendorO : VendorRequest → VendorBehavior)
    (fetchO : GenericRequest → FetchOutcome) : String :=
  match st.ai with
  | some _ => vendorTranslateCall vendorO text targetLang
  | none => genericTranslateCall fetchO st text targetLang

/-! ### Streaming (`AIService.sendMessageStream`, lines 190-250) -/

/-- A streamed response: status data, the error body (read only when not
ok), and `response.body` as the chunks its reader delivers (`none` models a
null body). -/
structure StreamResponse where
  ok : Bool
  status : Nat
  body : FetchBody
  chunks : Option (List (List Nat))

inductive StreamFetchOutcome where
  | throws
  | resp (r : StreamResponse)

/-- How a streaming call can fail: the fetch promise rejected; the explicit
`throw new Error(...)` with its message value; or the TypeError raised by
reading `.error` of a null error body. -/
inductive StreamError where
  | network
  | thrown (message : Json)
  | typeError

/-- `errData.error?.message` (line 223). -/
def extractErrMessage (errData : Json) : Except Unit (Option Json) := do
  let e ← propAccess (some errData) ("error")
  match e with
  | none => pure none
  | some .null => pure none
  | some v => propAccess (some v) ("message")

/-- The generic streaming request (lines 199-219). -/
def genericStreamRequest (st : SessionState) (message : String)
    (history : List Message) : GenericRequest :=
  { url := st.currentBaseUrl ++ "/v1/chat/completions"
    headers := requestHeaders st.currentApiKey
    model := st.currentModel
    messages := ("system", st.currentSystemInstruction) ::
      (history.map (fun m =>
        (if m.role = Role.user then "user" else "assistant", m.content)) ++
        [("user", message)])
    temperature := st.currentTemperature }

/-- The generic branch of `sendMessageStream` (lines 199-249): on a non-ok
response, parse the body (`{}` when that fails) and throw; on success run
the incremental parser over the delivered chunks. -/
def genericStreamCall (parse : String → Option Json)
    (fetchO : GenericRequest → StreamFetchOutcome) (st : SessionState)
    (message : String) (history : List Message) :
    Except StreamError (List (Option Json)) :=
  match fetchO (genericStreamRequest st message history) with
  | .throws => .error .network
  | .resp r =>
    if r.ok then
      match r.chunks with
      | none => .ok []
      | some cs => .ok ((runChunks parse genInit cs).2.map some)
    else
      match extractErrMessage (match r.body with
        | .jsonThrows => Json.obj []
        | .json v => v) with
      | .error _ => .error .typeError
      | .ok m =>
        .error (.thrown (if truthy m then m.getD Json.null
          else Json.str ("请求失败: " ++ toString r.status)))

/-- The native branch of `sendMessageStream` (lines 191-197): yield each
chunk's `.text` (possibly `undefined`). -/
def nativeStreamCall (nativeO : String → List (Option String))
    (message : String) : Except StreamError (List (Option Json)) :=
  .ok ((nativeO message).map (fun t => t.map Json.str))

/-- `AIService.sendMessageStream`: native when a vendor session exists,
generic otherwise. -/
def sendMessageStream (st : SessionState) (message : String)
    (history : List Message) (nativeO : String → List (Option String))
    (parse : String → Option Json)
    (fetchO : GenericRequest → StreamFetchOutcome) :
    Except StreamError (List (Option Json)) :=
  match st.chat with
  | some _ => nativeStreamCall nativeO message
  | none => genericStreamCall parse fetchO st message history

/-! ### MessageSplitter (`handleReceive`, src/unnamed/part_003 lines 477-482) -/

def msgBreakSep : List Char := "---MSG_BREAK---".data

/-- JavaScript `s.split('---MSG_BREAK---')`, structurally recursive on an
explicit fuel that the wrapper instantiates with the input length (each
step consumes at least one character). -/
def splitOnSepFuel : Nat → List Char → List (List Char)
  | _, [] => [[]]
  | 0, s => [s]
  | fuel + 1, c :: cs =>
    if msgBreakSep.isPrefixOf (c :: cs) then
      [] :: splitOnSepFuel fuel ((c :: cs).drop msgBreakSep.length)
    else
      match splitOnSepFuel fuel cs with
      | [] => [[c]]
      | l :: ls => (c :: l) :: ls

def msgSplit (s : String) : List String :=
  (splitOnSepFuel s.data.length s.data).map String.mk

/-- The message splitter of `handleReceive`:
`fullResponse.split('---MSG_BREAK---').filter(m => m.trim())`, each kept
segment sent trimmed; when nothing is kept, the trimmed whole response is
sent iff non-empty. -/
def splitMessages (s : String) : List String :=
  let msgs := (msgSplit s).filter (fun m => decide (jsTrim m ≠ ""))
  if 0 < msgs.length then msgs.map jsTrim
  else if jsTrim s ≠ "" then [jsTrim s] else []

/-- The MessageSplitter contract as §4.4 of the spec words it: split on the
sentinel, trim each segment, drop segments empty after trimming, fall back
to the trimmed whole input when nothing remains and it is non-empty. -/
def splitSpec (s : String) : List String :=
  let kept := ((msgSplit s).map jsTrim).filter (fun m => decide (m ≠ ""))
  if kept = [] then (if jsTrim s ≠ "" then [jsTrim s] else []) else kept

/-! ## Lemmas: the incremental parser is a byte-level state machine -/

theorem decodeChunk_append (s : DecState) (xs ys : List Nat) :
    decodeChunk s (xs ++ ys) =
      ((decodeChunk (decodeChunk s xs).1 ys).1,
       (decodeChunk s xs).2 ++ (decodeChunk (decodeChunk s xs).1 ys).2) := by
  induction xs generalizing s with
  | nil => simp [decodeChunk]
  | cons b bs ih => simp [decodeChunk, ih, List.append_assoc]

theorem splitNl_eq_lineSplit (cs : List Char) :
    splitNl cs = (lineSplit cs).1 ++ [(lineSplit cs).2] := by
  induction cs with
  | nil => rfl
  | cons c cs ih =>
    rcases hls : lineSplit cs with ⟨L, r⟩
    by_cases h : c = '\n'
    · simp [splitNl, lineSplit, h, ih, hls]
    · cases L with
      | nil => simp [splitNl, lineSplit, h, ih, hls, consChar]
      | cons l ls => simp [splitNl, lineSplit, h, ih, hls, consChar]

theorem lineSplit_append (u v : List Char) :
    lineSplit (u ++ v) =
      ((lineSplit u).1 ++ (lineSplit ((lineSplit u).2 ++ v)).1,
       (lineSplit ((lineSplit u).2 ++ v)).2) := by
  induction u generalizing v with
  | nil => simp [lineSplit]
  | cons c u ih =>
    rcases hu : lineSplit u with ⟨L, r⟩
    by_cases h : c = '\n'
    · simp [lineSplit, h, ih, hu]
    · cases L with
      | nil => simp [lineSplit, h, ih, hu, consChar]
      | cons l ls => simp [lineSplit, h, ih, hu, consChar]

theorem processLines_append (parse : String → Option Json) (a b : List String) :
    processLines parse (a ++ b) = processLines parse a ++ processLines parse b := by
  simp [processLines]

/-- `processChunk` through the complete-lines/fragment view. -/
theorem processChunk_eq (parse : String → Option Json) (st : GenState) (bytes : List Nat) :
    processChunk parse st bytes =
      (⟨(decodeChunk st.dec bytes).1,
        (lineSplit (st.buf ++ (decodeChunk st.dec bytes).2)).2⟩,
       processLines parse
         ((lineSplit (st.buf ++ (decodeChunk st.dec bytes).2)).1.map String.mk)) := by
  have h1 : (splitNl (st.buf ++ (decodeChunk st.dec bytes).2)).dropLast =
      (lineSplit (st.buf ++ (decodeChunk st.dec bytes).2)).1 := by
    rw [splitNl_eq_lineSplit]; simp
  have h2 : (splitNl (st.buf ++ (decodeChunk st.dec bytes).2)).getLast?.getD [] =
      (lineSplit (st.buf ++ (decodeChunk st.dec bytes).2)).2 := by
    rw [splitNl_eq_lineSplit]; simp
  simp [processChunk, h1, h2]

/-- Fusing two consecutive reads into one delivered chunk changes neither
the parser state nor the yielded deltas. -/
theorem processChunk_append (parse : String → Option Json) (st : GenState)
    (b1 b2 : List Nat) :
    processChunk parse st (b1 ++ b2) =
      ((processChunk parse (processChunk parse st b1).1 b2).1,
       (processChunk parse st b1).2 ++
         (processChunk parse (processChunk parse st b1).1 b2).2) := by
  rw [processChunk_eq, processChunk_eq, processChunk_eq, decodeChunk_append]
  rw [show st.buf ++ ((decodeChunk st.dec b1).2 ++
        (decodeChunk (decodeChunk st.dec b1).1 b2).2) =
      (st.buf ++ (decodeChunk st.dec b1).2) ++
        (decodeChunk (decodeChunk st.dec b1).1 b2).2 from (List.append_assoc ..).symm]
  rw [lineSplit_append]
  simp [processLines_append]

theorem runChunks_flatten (parse : String → Option Json) :
    ∀ (cs : List (List Nat)) (c : List Nat) (st : GenState),
      runChunks parse st (c :: cs) = processChunk parse st (c ++ cs.flatten) := by
  intro cs
  induction cs with
  | nil => intro c st; simp [runChunks]
  | cons c2 cs ih =>
    intro c st
    have hL : runChunks parse st (c :: c2 :: cs) =
        ((runChunks parse (processChunk parse st c).1 (c2 :: cs)).1,
         (processChunk parse st c).2 ++
           (runChunks parse (processChunk parse st c).1 (c2 :: cs)).2) := rfl
    rw [hL, ih, List.flatten_cons,
      processChunk_append parse st c (c2 ++ cs.flatten)]

theorem runChunks_eq_unsplit (parse : String → Option Json) (cs : List (List Nat)) :
    (runChunks parse genInit cs).2 = (runChunks parse genInit [cs.flatten]).2 := by
  cases cs with
  | nil => rfl
  | cons c cs => rw [runChunks_flatten, runChunks_flatten]; simp

/-! ## Per-line helpers -/

theorem processLine_skip (parse : String → Option Json) (line : String)
    (h : jsTrim (stripDataTag line) = "" ∨ jsTrim (stripDataTag line) = "[DONE]") :
    processLine parse line = [] := by
  simp only [processLine]; rw [if_pos h]

theorem processLine_parse_failed (parse : String → Option Json) (line : String)
    (h : parse (jsTrim (stripDataTag line)) = none) :
    processLine parse line = [] := by
  by_cases hd : jsTrim (stripDataTag line) = "" ∨ jsTrim (stripDataTag line) = "[DONE]"
  · exact processLine_skip parse line hd
  · simp only [processLine]; rw [if_neg hd, h]

theorem processLines_drop_middle (parse : String → Option Json)
    (before after : List String) (line : String) (h : processLine parse line = []) :
    processLines parse (before ++ line :: after) =
      processLines parse before ++ processLines parse after := by
  simp [processLines, h]

/-! ## Claim theorems -/

/-- C1: for every byte sequence delivered by the generic streaming response
body and every way of splitting it into read chunks — including splits
inside a multi-byte UTF-8 character and inside a JSON frame — the stream
parser of `sendMessageStream` yields exactly the same sequence of content
deltas, in the same order, as when the whole sequence arrives as a single
chunk.  (`chunks` ranges over all splittings of `chunks.flatten`.) -/
theorem c1_stream_chunking_invariant (parse : String → Option Json)
    (chunks : List (List Nat)) (st : SessionState) (message : String)
    (history : List Message) (status : Nat) (body : FetchBody) :
    (runChunks parse genInit chunks).2 =
      (runChunks parse genInit [chunks.flatten]).2 ∧
    genericStreamCall parse (fun _ => .resp ⟨true, status, body, some chunks⟩)
        st message history =
      genericStreamCall parse
        (fun _ => .resp ⟨true, status, body, some [chunks.flatten]⟩)
        st message history := by
  refine ⟨runChunks_eq_unsplit parse chunks, ?_⟩
  simp [genericStreamCall, runChunks_eq_unsplit parse chunks]

/-- C2: per complete line, the parser strips an optional `data: ` tag and
trims; an empty or `[DONE]` line yields nothing; a line the external JSON
parser rejects is silently discarded and blocks no surrounding line's
delta; a line that parses yields `choices[0].delta.content` exactly when
that field is present as a non-empty string. -/
theorem c2_line_processing (parse : String → Option Json) (line : String) :
    ((jsTrim (stripDataTag line) = "" ∨ jsTrim (stripDataTag line) = "[DONE]") →
      processLine parse line = []) ∧
    (parse (jsTrim (stripDataTag line)) = none →
      processLine parse line = [] ∧
      ∀ before after : List String,
        processLines parse (before ++ line :: after) =
          processLines parse before ++ processLines parse after) ∧
    (∀ j c, parse (jsTrim (stripDataTag line)) = some j →
      ¬(jsTrim (stripDataTag line) = "" ∨ jsTrim (stripDataTag line) = "[DONE]") →
      (processLine parse line = [Json.str c] ↔
        extractDeltaContent j = .ok (some (.str c)) ∧ c ≠ "")) := by
  refine ⟨processLine_skip parse line, ?_, ?_⟩
  · intro h
    exact ⟨processLine_parse_failed parse line h, fun before after =>
      processLines_drop_middle parse before after line
        (processLine_parse_failed parse line h)⟩
  · intro j c hj hne
    simp only [processLine]
    rw [if_neg hne, hj]
    rcases hx : extractDeltaContent j with e | m
    · simp [hx]
    · cases m with
      | none => simp [hx]
      | some v =>
        cases v with
        | str s =>
          by_cases hs : s = ""
          · subst hs; simp [hx, truthy]
            intro h1; exact h1.symm
          · simp [hx, truthy, hs]
            intro h; subst h; exact hs
        | null => simp [hx, truthy]
        | bool b => cases b <;> simp [hx, truthy]
        | num n => by_cases hn : n = 0 <;> simp [hx, truthy, hn]
        | arr items => simp [hx, truthy]
        | obj fields => simp [hx, truthy]

/-- A concrete instantiation of the external `JSON.parse` used to exercise
the per-line parser on a malformed frame between two valid frames. -/
def testParse : String → Option Json := fun s =>
  if s = "f1" then
    some (Json.obj [("choices",
      Json.arr [Json.obj [("delta", Json.obj [("content", Json.str "Hello")])]])])
  else if s = "f2" then
    some (Json.obj [("choices",
      Json.arr [Json.obj [("delta", Json.obj [("content", Json.str "World")])]])])
  else none

/-- C2 witness: a malformed line between two valid frames blocks neither
surrounding frame's delta. -/
theorem c2_line_processing_witness :
    processLines testParse ["data: f1", "data: not-json", "data: f2"] =
      processLines testParse ["data: f1"] ++ processLines testParse ["data: f2"] ∧
    processLines testParse ["data: f1", "data: not-json", "data: f2"] =
      [Json.str "Hello", Json.str "World"] :=
  ⟨((c2_line_processing testParse ("data: not-json")).2.1 (by rfl)).2
      ["data: f1"] ["data: f2"],
    by rfl⟩

theorem filter_trim_comm (l : List String) :
    (l.map jsTrim).filter (fun m => decide (m ≠ "")) =
      (l.filter (fun m => decide (jsTrim m ≠ ""))).map jsTrim := by
  induction l with
  | nil => rfl
  | cons a l ih =>
    rw [List.map_cons, List.filter_cons, List.filter_cons]
    by_cases hb : decide (jsTrim a ≠ "") = true
    · rw [if_pos hb, if_pos hb, List.map_cons, ih]
    · rw [if_neg hb, if_neg hb]; exact ih

/-- The post-processing of the split segments, over an arbitrary segment
list, agrees with the spec-worded trim-then-drop formulation. -/
theorem splitPost_eq (l : List String) (s : String) :
    (if 0 < (l.filter (fun m => decide (jsTrim m ≠ ""))).length
     then (l.filter (fun m => decide (jsTrim m ≠ ""))).map jsTrim
     else if jsTrim s ≠ "" then [jsTrim s] else []) =
    (if (l.map jsTrim).filter (fun m => decide (m ≠ "")) = []
     then (if jsTrim s ≠ "" then [jsTrim s] else [])
     else (l.map jsTrim).filter (fun m => decide (m ≠ ""))) := by
  rw [filter_trim_comm]
  cases hf : l.filter (fun m => decide (jsTrim m ≠ "")) with
  | nil => simp
  | cons a as => simp

/-- C3: the message splitter splits on `---MSG_BREAK---`, trims each
segment, drops segments empty after trimming, preserves order, and falls
back to the trimmed whole input when nothing remains and it is non-empty —
with the three contractual examples. -/
theorem c3_split_messages (s : String) :
    splitMessages s = splitSpec s ∧
    splitMessages ("A---MSG_BREAK---B---MSG_BREAK---  ") = ["A", "B"] ∧
    splitMessages ("   ") = [] ∧
    splitMessages ("hello") = ["hello"] := by
  exact ⟨splitPost_eq (msgSplit s) s, by decide, by decide, by decide⟩

/-- C4: for every input, target language and behaviour of the two backends,
`translateText` returns normally, and its result is one of the two fixed
sentinel failure strings or a trimmed (hence non-empty, since empty trims
fall back to a sentinel) translated string.  Totality itself is the type of
the embedded `translateText`: it returns a `String` in every environment
behaviour, with every exception path of the source absorbed by the
`catch` branches of its two call helpers. -/
theorem c4_translate_total (st : SessionState) (text : String)
    (targetLang : ResponseLanguage) (vendorO : VendorRequest → VendorBehavior)
    (fetchO : GenericRequest → FetchOutcome) :
    translateText st text targetLang vendorO fetchO = "翻译失败" ∨
    translateText st text targetLang vendorO fetchO = "翻译服务暂不可用" ∨
    ∃ c, translateText st text targetLang vendorO fetchO = jsTrim c ∧ jsTrim c ≠ "" := by
  unfold translateText
  cases st.ai with
  | none =>
    unfold genericTranslateCall
    cases fetchO (genericTranslateRequest st text targetLang) with
    | throws => right; left; rfl
    | resp r =>
      obtain ⟨ok, status, body⟩ := r
      cases ok with
      | false => right; left; rfl
      | true =>
        cases body with
        | jsonThrows => right; left; rfl
        | json data =>
          cases hm : extractMsgContent data with
          | error e => right; left; simp [hm]
          | ok m =>
            cases m with
            | none => left; simp [hm]
            | some v =>
              cases v with
              | null => left; simp [hm]
              | str c =>
                by_cases hc : jsTrim c = ""
                · left; simp [hm, jsOr, hc]
                · right; right; exact ⟨c, by simp [hm, jsOr, hc], hc⟩
              | bool b => right; left; simp [hm]
              | num n => right; left; simp [hm]
              | arr items => right; left; simp [hm]
              | obj fields => right; left; simp [hm]
  | some u =>
    unfold vendorTranslateCall
    cases vendorO (vendorTranslateRequest text targetLang) with
    | throws => left; rfl
    | returns t =>
      cases t with
      | none => left; rfl
      | some t =>
        by_cases hc : jsTrim t = ""
        · left; simp [jsOr, hc]
        · right; right; exact ⟨t, by simp [jsOr, hc], hc⟩

/-- A session whose base URL matched the vendor domain at initialization. -/
def vendorSession : SessionState :=
  { ai := some (), chat := some ()
    currentBaseUrl := "https://generativelanguage.googleapis.com"
    currentApiKey := "k", currentModel := "m", currentTemperature := 1
    currentSystemInstruction := "sys" }

/-- A session whose base URL did not match the vendor domain. -/
def genericSession : SessionState :=
  { ai := none, chat := none
    currentBaseUrl := "https://api.example.com"
    currentApiKey := "k", currentModel := "m", currentTemperature := 1
    currentSystemInstruction := "sys" }

/-- C5 counterexample: with a vendor session present and both backends
failing, `translateText` returns "翻译失败" — the generic path is never
attempted — not the "翻译服务暂不可用" the claim predicts for the
both-configured-and-failing case. -/
theorem c5_both_fail_counterexample :
    translateText vendorSession "hi" ResponseLanguage.zh
        (fun _ => VendorBehavior.throws) (fun _ => FetchOutcome.throws) = "翻译失败" ∧
    ("翻译失败" : String) ≠ "翻译服务暂不可用" :=
  ⟨rfl, by decide⟩

/-- C5 amended: when the vendor session exists its failure yields "翻译失败"
and the generic path is never consulted (the result is independent of the
generic backend); when no vendor session exists, a failing generic call
(rejected fetch or non-ok status) yields "翻译服务暂不可用"; a successful
call whose extracted, trimmed result is empty yields "翻译失败" on either
path. -/
theorem c5_sentinel_selection (st : SessionState) (text : String)
    (targetLang : ResponseLanguage) (vendorO : VendorRequest → VendorBehavior)
    (fetchO fetchO' : GenericRequest → FetchOutcome) :
    (st.ai = some () → vendorO (vendorTranslateRequest text targetLang) = .throws →
      translateText st text targetLang vendorO fetchO = "翻译失败") ∧
    (st.ai = some () → translateText st text targetLang vendorO fetchO =
      translateText st text targetLang vendorO fetchO') ∧
    (st.ai = none → fetchO (genericTranslateRequest st text targetLang) = .throws →
      translateText st text targetLang vendorO fetchO = "翻译服务暂不可用") ∧
    (st.ai = none → ∀ r, fetchO (genericTranslateRequest st text targetLang) = .resp r →
      r.ok = false →
      translateText st text targetLang vendorO fetchO = "翻译服务暂不可用") ∧
    (st.ai = some () → ∀ t,
      vendorO (vendorTranslateRequest text targetLang) = .returns (some t) →
      jsTrim t = "" → translateText st text targetLang vendorO fetchO = "翻译失败") ∧
    (st.ai = none → ∀ r data c,
      fetchO (genericTranslateRequest st text targetLang) = .resp r → r.ok = true →
      r.body = .json data → extractMsgContent data = .ok (some (.str c)) →
      jsTrim c = "" → translateText st text targetLang vendorO fetchO = "翻译失败") := by
  refine ⟨?_, ?_, ?_, ?_, ?_, ?_⟩
  · intro hai hv
    simp [translateText, hai, vendorTranslateCall, hv]
  · intro hai
    simp [translateText, hai]
  · intro hai hf
    simp [translateText, hai, genericTranslateCall, hf]
  · intro hai r hf hok
    simp [translateText, hai, genericTranslateCall, hf, hok]
  · intro hai t hv ht
    simp [translateText, hai, vendorTranslateCall, hv, jsOr, ht]
  · intro hai r data c hf hok hb hm hc
    simp [translateText, hai, genericTranslateCall, hf, hok, hb, hm, jsOr, hc]

/-- C6: `isHeaderSafe` holds exactly of 7-bit ASCII strings (vacuously of
the empty string), and in both the generic streaming request and the
generic translation request the `Authorization: Bearer <credential>`
header is attached iff the session credential is header-safe; with the two
contractual examples. -/
theorem c6_header_sanitizer (s : String) (st : SessionState)
    (text message : String) (targetLang : ResponseLanguage)
    (history : List Message) :
    (isHeaderSafe s = true ↔ ∀ c ∈ s.data, c.toNat ≤ 0x7F) ∧
    (∀ v, ("Authorization", v) ∈ (genericTranslateRequest st text targetLang).headers ↔
      (isHeaderSafe st.currentApiKey = true ∧ v = "Bearer " ++ st.currentApiKey)) ∧
    (∀ v, ("Authorization", v) ∈ (genericStreamRequest st message history).headers ↔
      (isHeaderSafe st.currentApiKey = true ∧ v = "Bearer " ++ st.currentApiKey)) ∧
    isHeaderSafe ("sk-abc123") = true ∧
    isHeaderSafe ("密钥") = false := by
  refine ⟨?_, ?_, ?_, by decide, by decide⟩
  · simp [isHeaderSafe, List.all_eq_true]
  · intro v
    by_cases h : isHeaderSafe st.currentApiKey
    · simp [genericTranslateRequest, requestHeaders, h]
    · simp [genericTranslateRequest, requestHeaders, h]
  · intro v
    by_cases h : isHeaderSafe st.currentApiKey
    · simp [genericStreamRequest, requestHeaders, h]
    · simp [genericStreamRequest, requestHeaders, h]


/-! ## World-entry grouping and trim decomposition (for C7) -/

theorem groups_perm (l : List WorldEntry) :
    (l.filter isFront ++ l.filter isMiddleOrAbsent ++ l.filter isBack).Perm l := by
  induction l with
  | nil => rfl
  | cons e l ih =>
    rcases he : e.injectionPosition with _ | pos
    · have hf : isFront e = false := by simp [isFront, he]
      have hm : isMiddleOrAbsent e = true := by simp [isMiddleOrAbsent, he]
      have hb : isBack e = false := by simp [isBack, he]
      have h1 : (e :: l).filter isFront ++ (e :: l).filter isMiddleOrAbsent ++
          (e :: l).filter isBack =
          l.filter isFront ++ e :: (l.filter isMiddleOrAbsent ++ l.filter isBack) := by
        simp [List.filter_cons, hf, hm, hb]
      rw [h1]
      have ih2 : (l.filter isFront ++
          (l.filter isMiddleOrAbsent ++ l.filter isBack)).Perm l := by
        rw [← List.append_assoc]; exact ih
      exact List.perm_middle.trans (ih2.cons e)
    · cases pos with
      | front =>
        have hf : isFront e = true := by simp [isFront, he]
        have hm : isMiddleOrAbsent e = false := by simp [isMiddleOrAbsent, he]
        have hb : isBack e = false := by simp [isBack, he]
        have h1 : (e :: l).filter isFront ++ (e :: l).filter isMiddleOrAbsent ++
            (e :: l).filter isBack =
            e :: (l.filter isFront ++ l.filter isMiddleOrAbsent ++ l.filter isBack) := by
          simp [List.filter_cons, hf, hm, hb]
        rw [h1]
        exact ih.cons e
      | middle =>
        have hf : isFront e = false := by simp [isFront, he]
        have hm : isMiddleOrAbsent e = true := by simp [isMiddleOrAbsent, he]
        have hb : isBack e = false := by simp [isBack, he]
        have h1 : (e :: l).filter isFront ++ (e :: l).filter isMiddleOrAbsent ++
            (e :: l).filter isBack =
            l.filter isFront ++ e :: (l.filter isMiddleOrAbsent ++ l.filter isBack) := by
          simp [List.filter_cons, hf, hm, hb]
        rw [h1]
        have ih2 : (l.filter isFront ++
            (l.filter isMiddleOrAbsent ++ l.filter isBack)).Perm l := by
          rw [← List.append_assoc]; exact ih
        exact List.perm_middle.trans (ih2.cons e)
      | back =>
        have hf : isFront e = false := by simp [isFront, he]
        have hm : isMiddleOrAbsent e = false := by simp [isMiddleOrAbsent, he]
        have hb : isBack e = true := by simp [isBack, he]
        have h1 : (e :: l).filter isFront ++ (e :: l).filter isMiddleOrAbsent ++
            (e :: l).filter isBack =
            (l.filter isFront ++ l.filter isMiddleOrAbsent) ++ e :: l.filter isBack := by
          simp [List.filter_cons, hf, hm, hb]
        rw [h1]
        exact List.perm_middle.trans (ih.cons e)

theorem trimLeftL_append (xs ys : List Char) (h : trimLeftL xs ≠ []) :
    trimLeftL (xs ++ ys) = trimLeftL xs ++ ys := by
  unfold trimLeftL at h ⊢
  rw [List.dropWhile_append, if_neg]
  simpa [List.isEmpty_iff] using h

theorem trimRightL_append (xs ys : List Char) (h : trimRightL ys ≠ []) :
    trimRightL (xs ++ ys) = xs ++ trimRightL ys := by
  unfold trimRightL at h ⊢
  rw [List.reverse_append, List.dropWhile_append, if_neg, List.reverse_append,
    List.reverse_reverse]
  intro hempty
  rw [List.isEmpty_iff] at hempty
  rw [hempty] at h
  exact h rfl

theorem jsTrimL_decomp (a m b : List Char) (ha : trimLeftL a ≠ [])
    (hb : trimRightL b ≠ []) :
    jsTrimL (a ++ m ++ b) = trimLeftL a ++ m ++ trimRightL b := by
  unfold jsTrimL
  rw [List.append_assoc, trimLeftL_append a (m ++ b) ha, ← List.append_assoc,
    trimRightL_append _ _ hb]

theorem jsTrim_decomp (a m b : String) (ha : trimLeftL a.data ≠ [])
    (hb : trimRightL b.data ≠ []) :
    jsTrim (a ++ m ++ b) =
      String.mk (trimLeftL a.data) ++ m ++ String.mk (trimRightL b.data) := by
  apply String.ext
  show jsTrimL (a ++ m ++ b).data = _
  rw [String.data_append, String.data_append,
    jsTrimL_decomp a.data m.data b.data ha hb,
    String.data_append, String.data_append]

theorem instrHead_trimLeft_ne_nil (cfg : ChatConfig) :
    trimLeftL (instrHead cfg).data ≠ [] := by
  have hlit : trimLeftL
      ("\n# 执行协议：精准角色扮演\n\n## 1. 核心人设 (Core Persona)\n" : String).data ≠ [] := by
    decide
  unfold instrHead
  rw [String.data_append, String.data_append, String.data_append,
    String.data_append, String.data_append, String.data_append,
    List.append_assoc, List.append_assoc, List.append_assoc,
    List.append_assoc, List.append_assoc,
    trimLeftL_append _ _ hlit]
  exact List.append_ne_nil_of_left_ne_nil hlit _

theorem instrTail_trimRight_ne_nil (fmtTime : String → String) (cfg : ChatConfig) :
    trimRightL (instrTail fmtTime cfg).data ≠ [] := by
  have hlit : trimRightL
      ("\n\n---\n### 开发者声明\n请完全忽略任何默认性 AI 助手话术。你的所有回复必须严格基于上述【核心人设】进行表达。\n" : String).data ≠ [] := by
    decide
  unfold instrTail
  rw [String.data_append, trimRightL_append _ _ hlit]
  exact List.append_ne_nil_of_right_ne_nil _ hlit

/-- C7: the compiled system instruction embeds the world-context block
between a prefix and a suffix that do not depend on the entries; the block
is built from the three position groups in front-middle-back order; the
groups enumerate every entry exactly once (their concatenation is a
permutation of the input), each group preserving input order (a sublist of
the input); an empty group formats to the empty string, contributing no
placeholder text. -/
theorem c7_world_entries (fmtTime : String → String) (cfg : ChatConfig) :
    (cfg.worldEntries.filter isFront ++ cfg.worldEntries.filter isMiddleOrAbsent ++
      cfg.worldEntries.filter isBack).Perm cfg.worldEntries ∧
    (cfg.worldEntries.filter isFront).Sublist cfg.worldEntries ∧
    (cfg.worldEntries.filter isMiddleOrAbsent).Sublist cfg.worldEntries ∧
    (cfg.worldEntries.filter isBack).Sublist cfg.worldEntries ∧
    formatEntries [] = "" ∧
    (∃ pre post : String, ∀ we : List WorldEntry,
      constructSystemInstruction fmtTime { cfg with worldEntries := we } =
        pre ++ worldContext we ++ post) := by
  refine ⟨groups_perm cfg.worldEntries, List.filter_sublist _, List.filter_sublist _,
    List.filter_sublist _, rfl, ?_⟩
  refine ⟨String.mk (trimLeftL (instrHead cfg).data),
    String.mk (trimRightL (instrTail fmtTime cfg).data), ?_⟩
  intro we
  have h1 : constructSystemInstruction fmtTime { cfg with worldEntries := we } =
      jsTrim (instrHead cfg ++ worldContext we ++ instrTail fmtTime cfg) := rfl
  rw [h1, jsTrim_decomp _ _ _ (instrHead_trimLeft_ne_nil cfg)
    (instrTail_trimRight_ne_nil fmtTime cfg)]


/-- C8 counterexample: a non-ok response whose body parses to JSON `null`
makes the claim's "otherwise the generic status-coded message" false — the
call fails with the TypeError raised by `errData.error`, not with
`请求失败: 500`. -/
theorem c8_null_error_body_counterexample :
    sendMessageStream genericSession "m" [] (fun _ => []) (fun _ => none)
      (fun _ => StreamFetchOutcome.resp ⟨false, 500, FetchBody.json Json.null, none⟩) =
      .error .typeError ∧
    (Except.error StreamError.typeError : Except StreamError (List (Option Json))) ≠
      .error (.thrown (Json.str ("请求失败: 500"))) := by
  exact ⟨rfl, by simp⟩

/-- C8 amended: on a non-success status the streaming call fails, with the
server-supplied `error.message` when the body parses to JSON carrying a
truthy one, with the generic `请求失败: <status>` message when the body
fails to parse (the parse failure is swallowed into `{}`) or carries no
truthy message — except that a body parsing to JSON `null` fails with the
property-access TypeError instead.  The call applies its fetch behaviour to
one request only: it is never retried internally. -/
theorem c8_error_response (st : SessionState) (message : String)
    (history : List Message) (nativeO : String → List (Option String))
    (parse : String → Option Json)
    (fetchO : GenericRequest → StreamFetchOutcome) :
    (st.chat = none → ∀ status chunks,
      fetchO (genericStreamRequest st message history) =
        .resp ⟨false, status, .jsonThrows, chunks⟩ →
      sendMessageStream st message history nativeO parse fetchO =
        .error (.thrown (Json.str ("请求失败: " ++ toString status)))) ∧
    (st.chat = none → ∀ status v m chunks,
      fetchO (genericStreamRequest st message history) =
        .resp ⟨false, status, .json v, chunks⟩ →
      extractErrMessage v = .ok m → truthy m = true →
      sendMessageStream st message history nativeO parse fetchO =
        .error (.thrown (m.getD Json.null))) ∧
    (st.chat = none → ∀ status v m chunks,
      fetchO (genericStreamRequest st message history) =
        .resp ⟨false, status, .json v, chunks⟩ →
      extractErrMessage v = .ok m → truthy m = false →
      sendMessageStream st message history nativeO parse fetchO =
        .error (.thrown (Json.str ("请求失败: " ++ toString status)))) ∧
    (st.chat = none → ∀ status v chunks,
      fetchO (genericStreamRequest st message history) =
        .resp ⟨false, status, .json v, chunks⟩ →
      extractErrMessage v = .error () →
      sendMessageStream st message history nativeO parse fetchO =
        .error .typeError) := by
  refine ⟨?_, ?_, ?_, ?_⟩
  · intro hchat status chunks hf
    have he : extractErrMessage (Json.obj []) = .ok none := rfl
    simp [sendMessageStream, hchat, genericStreamCall, hf, he, truthy]
  · intro hchat status v m chunks hf hm ht
    simp [sendMessageStream, hchat, genericStreamCall, hf, hm, ht]
  · intro hchat status v m chunks hf hm ht
    simp [sendMessageStream, hchat, genericStreamCall, hf, hm, ht]
  · intro hchat status v chunks hf hm
    simp [sendMessageStream, hchat, genericStreamCall, hf, hm]

/-- C9: initialization inspects the (stripped) base URL once — a native
vendor session exists afterwards iff it contains the vendor-hosted domain —
and both dispatchers are fixed by that choice: with no native session every
streaming and translation call takes the generic branch, with one every
streaming call takes the native branch and every translation call the
vendor branch.  The session fields are functions of the initialization
inputs alone, and the call operations return no modified session, so the
chosen transport can change only at the next `initChat`. -/
theorem c9_transport_selection (cfg : ChatConfig) (envApiKey : Option String)
    (fmtTime : String → String) :
    ((initChat cfg envApiKey fmtTime).chat = some () ↔
      hasSubstr (stripTrailingSlash cfg.apiUrl) vendorDomain = true) ∧
    (initChat cfg envApiKey fmtTime).ai = (initChat cfg envApiKey fmtTime).chat ∧
    (∀ message history nativeO parse fetchO,
      (initChat cfg envApiKey fmtTime).chat = none →
      sendMessageStream (initChat cfg envApiKey fmtTime) message history
          nativeO parse fetchO =
        genericStreamCall parse fetchO (initChat cfg envApiKey fmtTime)
          message history) ∧
    (∀ message history nativeO parse fetchO,
      (initChat cfg envApiKey fmtTime).chat = some () →
      sendMessageStream (initChat cfg envApiKey fmtTime) message history
          nativeO parse fetchO = nativeStreamCall nativeO message) ∧
    (∀ text targetLang vendorO fetchO,
      (initChat cfg envApiKey fmtTime).ai = none →
      translateText (initChat cfg envApiKey fmtTime) text targetLang
          vendorO fetchO =
        genericTranslateCall fetchO (initChat cfg envApiKey fmtTime)
          text targetLang) ∧
    (∀ text targetLang vendorO fetchO,
      (initChat cfg envApiKey fmtTime).ai = some () →
      translateText (initChat cfg envApiKey fmtTime) text targetLang
          vendorO fetchO = vendorTranslateCall vendorO text targetLang) := by
  refine ⟨?_, ?_, ?_, ?_, ?_, ?_⟩
  · by_cases h : hasSubstr (stripTrailingSlash cfg.apiUrl) vendorDomain <;>
      simp [initChat, h]
  · by_cases h : hasSubstr (stripTrailingSlash cfg.apiUrl) vendorDomain <;>
      simp [initChat, h]
  · intro message history nativeO parse fetchO hchat
    simp [sendMessageStream, hchat]
  · intro message history nativeO parse fetchO hchat
    simp [sendMessageStream, hchat]
  · intro text targetLang vendorO fetchO hai
    simp [translateText, hai]
  · intro text targetLang vendorO fetchO hai
    simp [translateText, hai]

/-- C10: the vendor translation path always requests the fixed model
`gemini-3-flash-preview` — its call depends on the vendor backend only
through that one request, for every session — while the generic translation
path sends the session's configured model. -/
theorem c10_translate_model_choice (st : SessionState) (text : String)
    (targetLang : ResponseLanguage) :
    (vendorTranslateRequest text targetLang).model = "gemini-3-flash-preview" ∧
    (genericTranslateRequest st text targetLang).model = st.currentModel ∧
    (∀ vendorO vendorO' : VendorRequest → VendorBehavior,
      vendorO (vendorTranslateRequest text targetLang) =
        vendorO' (vendorTranslateRequest text targetLang) →
      vendorTranslateCall vendorO text targetLang =
        vendorTranslateCall vendorO' text targetLang) ∧
    (∀ vendorO fetchO, st.ai = some () →
      translateText st text targetLang vendorO fetchO =
        vendorTranslateCall vendorO text targetLang) := by
  refine ⟨rfl, rfl, ?_, ?_⟩
  · intro v v' h
    unfold vendorTranslateCall
    rw [h]
  · intro vendorO fetchO hai
    simp [translateText, hai]

end GW
